import Mathlib

/-
Verification of the room-join orchestrator of clientapi/routing/joinroom.go.

The Go code is shallowly embedded as pure Lean functions.  Every external
capability the orchestrator consumes (roomserver query API, federation
client, alias API, key ring, event producer) is modelled as a field of an
`Env` record holding the pure outcome the capability would return; the
orchestrator's own control flow is translated line by line from the source.
Calls to the capabilities are recorded in a trace of `Effect` values so
that call-count properties (who was contacted, whether publication
happened) are observable.  Go's `(value, error)` returns are modelled with
`Except GoError`; Go's `nil`-response-plus-error return of
`joinRoomUsingServer` is `Except GoError JSONResponse`.  A Go runtime
panic is modelled as `Option.none` at the one place the source can panic.
-/

namespace Dendrite

abbrev ServerName := String
abbrev RoomVersion := String

/-- gomatrixserverlib.RoomVersionV1, the constant the code defaults to. -/
def roomVersionV1 : RoomVersion := "1"

/-- Errors returned by the capabilities.  `errRoomNoExists` is the
distinguished common.ErrRoomNoExists signal; `httpError` models a
gomatrix.HTTPError with its status code. -/
inductive GoError
  | errRoomNoExists
  | httpError (code : Nat)
  | other (msg : String)
deriving DecidableEq

/-- Marshalled JSON content carried by an event builder.  `nil` is the Go
zero value (no bytes); `obj` is the canonical encoding of a JSON object
(SetUnsigned of an empty struct yields the empty JSON object). -/
inductive Content
  | nil
  | obj (fields : List (String × String))
deriving DecidableEq

/-- gomatrixserverlib.EventBuilder: the fields joinroom.go touches. -/
structure EventBuilder where
  type : String
  content : Content
  unsigned : Content
  sender : String
  stateKey : Option String
  roomID : String
  redacts : String
deriving DecidableEq

/-- The Go zero value `var eb gomatrixserverlib.EventBuilder`. -/
def emptyBuilder : EventBuilder :=
  { type := "", content := .nil, unsigned := .nil, sender := "", stateKey := none,
    roomID := "", redacts := "" }

/-- A built (signed) event: the builder it came from plus the room version
bound at build time.  Signing key material is absorbed into `Env.buildJoinEvent`. -/
structure Event where
  builder : EventBuilder
  version : RoomVersion
deriving DecidableEq

/-- Federation response to send-join (the state snapshot, abstracted). -/
structure RespSendJoin where
  stateEvents : List Event
deriving DecidableEq

/-- Federation response to make-join. -/
structure RespMakeJoin where
  roomVersion : RoomVersion
  joinEvent : EventBuilder
deriving DecidableEq

/-- Federation response to a remote alias lookup. -/
structure RoomAliasLookup where
  roomID : String
  servers : List ServerName
deriving DecidableEq

/-- The JSON bodies joinroom.go can produce, structured rather than as
formatted strings; each carries the data the Go message interpolates. -/
inductive JSONBody
  | joinedRoom (roomID : String)
  | badJSONInvalidFirstChar (c : Char)
  | badJSONAliasForm
  | unsupportedRoomVersion (v : RoomVersion)
  | notFoundAlias (roomAlias : String)
  | notFoundAliasRemote
  | notFoundNoServers
  | internalServerError
deriving DecidableEq

/-- util.JSONResponse: HTTP status code plus body. -/
structure JSONResponse where
  code : Nat
  json : JSONBody
deriving DecidableEq

/-- jsonerror.InternalServerError(). -/
def internalServerError : JSONResponse :=
  { code := 500, json := .internalServerError }

/-- Observable calls to the consumed capabilities, recorded in order. -/
inductive Effect
  | buildLocal
  | publishLocal (version : RoomVersion)
  | attemptJoin (server : ServerName)
  | queryCaps
  | makeJoinCall (server : ServerName)
  | signEventCall (version : RoomVersion)
  | sendJoinCall (server : ServerName) (version : RoomVersion)
  | checkCall (server : ServerName)
  | publishWithState (server : ServerName) (version : RoomVersion)
deriving DecidableEq

/-- Whether an effect is an invocation of the event-publication capability
(producer.SendEvents locally, producer.SendEventWithState federated). -/
def Effect.isPublish : Effect → Bool
  | .publishLocal _ => true
  | .publishWithState _ _ => true
  | _ => false

/-- The room version an effect carries, when it carries one. -/
def Effect.version? : Effect → Option RoomVersion
  | .publishLocal v => some v
  | .signEventCall v => some v
  | .sendJoinCall _ v => some v
  | .publishWithState _ v => some v
  | _ => none

/-- The environment: pure outcomes of every consumed capability.
`buildEventLocal` stands for common.BuildEvent together with the room
version the state query fills in; `eventFormatKnown` is whether
RoomVersion.EventFormat() succeeds for a version. -/
structure Env where
  serverName : ServerName
  queryInvitesForUser : String → String → Except GoError (List String)
  getRoomIDForAlias : String → Except GoError String
  lookupRoomAlias : ServerName → String → Except GoError RoomAliasLookup
  queryRoomVersionCapabilities : Except GoError (List RoomVersion)
  makeJoin : ServerName → String → String → List RoomVersion → Except GoError RespMakeJoin
  eventFormatKnown : RoomVersion → Bool
  buildJoinEvent : EventBuilder → RoomVersion → Except GoError Event
  sendJoin : ServerName → Event → RoomVersion → Except GoError RespSendJoin
  checkSendJoin : RespSendJoin → Event → Except GoError Unit
  buildEventLocal : EventBuilder → Except GoError (Event × RoomVersion)
  sendEventsLocal : Event → RoomVersion → Except GoError Unit
  sendEventWithState : RespSendJoin → Event → RoomVersion → Except GoError Unit

/-- The per-request state of joinRoomReq that the join logic reads. -/
structure JoinRoomReq where
  userID : String
  content : Content
deriving DecidableEq

/-- Split a character list at the first colon (strings.SplitN(id, ":", 2)). -/
def splitColon : List Char → Option (List Char × List Char)
  | [] => none
  | c :: rest =>
    if c = ':' then some ([], rest)
    else
      match splitColon rest with
      | none => none
      | some p => some (c :: p.1, p.2)

/-- gomatrixserverlib.SplitID: the id must start with the sigil and contain
a colon; the localpart is everything between, the domain everything after
the first colon. -/
def splitID (sigil : Char) (id : String) : Except GoError (String × ServerName) :=
  match id.data with
  | [] => .error (.other "invalid ID: wrong sigil")
  | c :: rest =>
    if c = sigil then
      match splitColon rest with
      | none => .error (.other "invalid ID: missing colon")
      | some p => .ok (String.mk p.1, String.mk p.2)
    else .error (.other "invalid ID: wrong sigil")

/-- First character of a string, if any (strings.HasPrefix on a one-char
sigil is `firstChar s = some sigil`). -/
def firstChar (s : String) : Option Char :=
  match s.data with
  | [] => none
  | c :: _ => some c

/-- joinRoomReq.writeToBuilder: overwrites type, content, unsigned, sender,
state key, room ID and redaction target.  SetContent/SetUnsigned marshal
JSON-decoded maps and cannot fail on this input, so the embedding is total. -/
def writeToBuilder (r : JoinRoomReq) (eb : EventBuilder) (roomID : String) : EventBuilder :=
  { eb with
    type := "m.room.member"
    content := r.content
    unsigned := Content.obj []
    sender := r.userID
    stateKey := some r.userID
    roomID := roomID
    redacts := "" }

/-- The two lines defaulting an absent make-join room version to V1. -/
def effectiveVersion (v : RoomVersion) : RoomVersion :=
  if v = "" then roomVersionV1 else v

/-- joinRoomReq.joinRoomUsingServer: one federated handshake attempt
against `server`.  Second component `.ok resp` models the Go return
`(resp, nil)`; `.error e` models `(nil, e)`. -/
def joinRoomUsingServer (env : Env) (r : JoinRoomReq) (roomID : String)
    (server : ServerName) : List Effect × Except GoError JSONResponse :=
  match env.queryRoomVersionCapabilities with
  | .error e => ([.attemptJoin server, .queryCaps], .error e)
  | .ok supportedVersions =>
    match env.makeJoin server roomID r.userID supportedVersions with
    | .error e => ([.attemptJoin server, .queryCaps, .makeJoinCall server], .error e)
    | .ok respMakeJoin =>
      let eb := writeToBuilder r respMakeJoin.joinEvent roomID
      let roomVersion := effectiveVersion respMakeJoin.roomVersion
      let base : List Effect := [.attemptJoin server, .queryCaps, .makeJoinCall server]
      if env.eventFormatKnown roomVersion then
        match env.buildJoinEvent eb roomVersion with
        | .error _ => (base ++ [.signEventCall roomVersion], .ok internalServerError)
        | .ok event =>
          match env.sendJoin server event roomVersion with
          | .error e =>
            (base ++ [.signEventCall roomVersion, .sendJoinCall server roomVersion], .error e)
          | .ok respSendJoin =>
            match env.checkSendJoin respSendJoin event with
            | .error e =>
              (base ++ [.signEventCall roomVersion, .sendJoinCall server roomVersion,
                .checkCall server], .error e)
            | .ok _ =>
              match env.sendEventWithState respSendJoin event roomVersion with
              | .error _ =>
                (base ++ [.signEventCall roomVersion, .sendJoinCall server roomVersion,
                  .checkCall server, .publishWithState server roomVersion],
                 .ok internalServerError)
              | .ok _ =>
                (base ++ [.signEventCall roomVersion, .sendJoinCall server roomVersion,
                  .checkCall server, .publishWithState server roomVersion],
                 .ok { code := 200, json := .joinedRoom roomID })
      else
        (base, .ok { code := 400, json := .unsupportedRoomVersion roomVersion })

/-- The fallback loop of joinRoomUsingServers (lines 275-302): try each
candidate in order; the first attempt returning a response without error
wins; otherwise remember the last error and fall through to a generic
internal server error.  Middle component is `lastErr` at return time. -/
def joinServersLoop (env : Env) (r : JoinRoomReq) (roomID : String) :
    List ServerName → Option GoError → List Effect × Option GoError × JSONResponse
  | [], lastErr => ([], lastErr, internalServerError)
  | server :: rest, _ =>
    match joinRoomUsingServer env r roomID server with
    | (tr, .ok resp) => (tr, none, resp)
    | (tr, .error e) =>
      match joinServersLoop env r roomID rest (some e) with
      | (tr2, le, resp) => (tr ++ tr2, le, resp)

/-- joinRoomReq.joinRoomUsingServers: local path first, then the
distinguished room-absent signal selects NotFound or the federated loop. -/
def joinRoomUsingServers (env : Env) (r : JoinRoomReq) (roomID : String)
    (servers : List ServerName) : List Effect × Option GoError × JSONResponse :=
  let eb := writeToBuilder r emptyBuilder roomID
  match env.buildEventLocal eb with
  | .ok ev =>
    match env.sendEventsLocal ev.1 ev.2 with
    | .error _ => ([.buildLocal, .publishLocal ev.2], none, internalServerError)
    | .ok _ => ([.buildLocal, .publishLocal ev.2], none,
        { code := 200, json := .joinedRoom roomID })
  | .error e =>
    if e ≠ GoError.errRoomNoExists then ([.buildLocal], none, internalServerError)
    else if servers.isEmpty then
      ([.buildLocal], none, { code := 404, json := .notFoundNoServers })
    else
      match joinServersLoop env r roomID servers none with
      | (tr, le, resp) => (.buildLocal :: tr, le, resp)

/-- The inviter-domain collection loop of joinRoomByID (lines 129-141):
`acc` plays the roles of both `servers` and the `seenInInviterIDs` set,
which always contains exactly the domains already appended. -/
def collectInviterDomains : List String → List ServerName → Except GoError (List ServerName)
  | [], acc => .ok acc
  | userID :: rest, acc =>
    match splitID '@' userID with
    | .error e => .error e
    | .ok p =>
      if p.2 ∈ acc then collectInviterDomains rest acc
      else collectInviterDomains rest (acc ++ [p.2])

/-- Candidate-server construction of joinRoomByID (lines 129-154): inviter
domains deduplicated in first-seen order, then the room-ID domain unless it
is the local server name or already present. -/
def candidateServers (sn : ServerName) (roomID : String) (senders : List String) :
    Except GoError (List ServerName) :=
  match collectInviterDomains senders [] with
  | .error e => .error e
  | .ok servers =>
    match splitID '!' roomID with
    | .error e => .error e
    | .ok p =>
      if p.2 ≠ sn ∧ p.2 ∉ servers then .ok (servers ++ [p.2]) else .ok servers

/-- joinRoomReq.joinRoomByID. -/
def joinRoomByID (env : Env) (r : JoinRoomReq) (roomID : String) :
    List Effect × Option GoError × JSONResponse :=
  match env.queryInvitesForUser roomID r.userID with
  | .error _ => ([], none, internalServerError)
  | .ok senders =>
    match candidateServers env.serverName roomID senders with
    | .error _ => ([], none, internalServerError)
    | .ok servers => joinRoomUsingServers env r roomID servers

/-- joinRoomReq.joinRoomByRemoteAlias. -/
def joinRoomByRemoteAlias (env : Env) (r : JoinRoomReq) (domain : ServerName)
    (roomAlias : String) : List Effect × Option GoError × JSONResponse :=
  match env.lookupRoomAlias domain roomAlias with
  | .error (.httpError 404) => ([], none, { code := 404, json := .notFoundAliasRemote })
  | .error _ => ([], none, internalServerError)
  | .ok resp => joinRoomUsingServers env r resp.roomID resp.servers

/-- joinRoomReq.joinRoomByAlias. -/
def joinRoomByAlias (env : Env) (r : JoinRoomReq) (roomAlias : String) :
    List Effect × Option GoError × JSONResponse :=
  match splitID '#' roomAlias with
  | .error _ => ([], none, { code := 400, json := .badJSONAliasForm })
  | .ok p =>
    if p.2 = env.serverName then
      match env.getRoomIDForAlias roomAlias with
      | .error _ => ([], none, internalServerError)
      | .ok rid =>
        if rid.length > 0 then
          joinRoomUsingServers env r rid [env.serverName]
        else ([], none, { code := 404, json := .notFoundAlias roomAlias })
    else joinRoomByRemoteAlias env r p.2 roomAlias

/-- JoinRoomByIDOrAlias, from the sigil dispatch on (lines 84-97); the
request-parsing steps before it (lines 51-82) are independent of the
target string and are taken as having produced `r`.  `none` models the Go
runtime panic: on a target starting with neither sigil the code evaluates
string(rune-slice-of-target[0]), which panics when the target is empty. -/
def JoinRoomByIDOrAlias (env : Env) (r : JoinRoomReq) (roomIDOrAlias : String) :
    Option (List Effect × Option GoError × JSONResponse) :=
  if firstChar roomIDOrAlias = some '!' then some (joinRoomByID env r roomIDOrAlias)
  else if firstChar roomIDOrAlias = some '#' then some (joinRoomByAlias env r roomIDOrAlias)
  else
    match roomIDOrAlias.data with
    | [] => none
    | c :: _ => some ([], none, { code := 400, json := .badJSONInvalidFirstChar c })

/-- First-seen deduplication relative to an already-seen list: the
reference description of the inviter-domain ordering. -/
def dedupSeen : List ServerName → List ServerName → List ServerName
  | [], _ => []
  | d :: ds, seen =>
    if d ∈ seen then dedupSeen ds seen else d :: dedupSeen ds (seen ++ [d])

/-- The inviter domains in invite order, error on the first unsplittable
inviter user ID, before any deduplication. -/
def inviterDomains : List String → Except GoError (List ServerName)
  | [] => .ok []
  | userID :: rest =>
    match splitID '@' userID with
    | .error e => .error e
    | .ok p =>
      match inviterDomains rest with
      | .error e => .error e
      | .ok ds => .ok (p.2 :: ds)

/-- A baseline concrete environment: every capability succeeds, the local
room is absent (the distinguished room-absent signal), known room versions
are 1 through 5. -/
def envBase : Env :=
  { serverName := "local"
    queryInvitesForUser := fun _ _ => .ok []
    getRoomIDForAlias := fun _ => .ok "!r:remote"
    lookupRoomAlias := fun _ _ => .error (.httpError 404)
    queryRoomVersionCapabilities := .ok ["1"]
    makeJoin := fun _ _ _ _ => .ok { roomVersion := "1", joinEvent := emptyBuilder }
    eventFormatKnown := fun v => (["1", "2", "3", "4", "5"] : List String).contains v
    buildJoinEvent := fun eb v => .ok { builder := eb, version := v }
    sendJoin := fun _ _ _ => .ok { stateEvents := [] }
    checkSendJoin := fun _ _ => .ok ()
    buildEventLocal := fun _ => .error .errRoomNoExists
    sendEventsLocal := fun _ _ => .ok ()
    sendEventWithState := fun _ _ _ => .ok () }

/-- A concrete request. -/
def r0 : JoinRoomReq :=
  { userID := "@u:local", content := Content.obj [("membership", "join")] }

/-- Environment where server s1 offers an unknown room version 99 and any
other server offers version 1. -/
def envC1 : Env :=
  { envBase with makeJoin := fun server _ _ _ =>
      if server = "s1" then .ok ⟨"99", emptyBuilder⟩ else .ok ⟨"1", emptyBuilder⟩ }

/-- Environment whose send-join responses always fail trust verification. -/
def envC3 : Env :=
  { envBase with checkSendJoin := fun _ _ => .error (.other "bad signature") }

/-- Environment whose local build fails with an error other than the
room-absent signal. -/
def envC4 : Env :=
  { envBase with buildEventLocal := fun _ => .error (.other "bad content") }

/-- Environment where every make-join call fails, carrying the server name
in the error so that the last error is identifiable. -/
def envC6 : Env :=
  { envBase with makeJoin := fun server _ _ _ => .error (.other server) }

/-- Environment supporting only room version 2 locally while the remote
make-join response omits the room version. -/
def envC7 : Env :=
  { envBase with
    queryRoomVersionCapabilities := .ok ["2"]
    makeJoin := fun _ _ _ _ => .ok { roomVersion := "", joinEvent := emptyBuilder } }

/-- Exhaustive enumeration of the possible outcomes of one handshake
attempt: the trace and result of every branch of joinRoomUsingServer. -/
theorem aux_cases (env : Env) (r : JoinRoomReq) (roomID : String) (server : ServerName) :
    ∃ v : RoomVersion,
      (∃ e, joinRoomUsingServer env r roomID server =
        ([.attemptJoin server, .queryCaps], .error e)) ∨
      (∃ e, joinRoomUsingServer env r roomID server =
        ([.attemptJoin server, .queryCaps, .makeJoinCall server], .error e)) ∨
      (joinRoomUsingServer env r roomID server =
        ([.attemptJoin server, .queryCaps, .makeJoinCall server],
         .ok { code := 400, json := .unsupportedRoomVersion v })) ∨
      (joinRoomUsingServer env r roomID server =
        ([.attemptJoin server, .queryCaps, .makeJoinCall server, .signEventCall v],
         .ok internalServerError)) ∨
      (∃ e, joinRoomUsingServer env r roomID server =
        ([.attemptJoin server, .queryCaps, .makeJoinCall server, .signEventCall v,
          .sendJoinCall server v], .error e)) ∨
      (∃ e, joinRoomUsingServer env r roomID server =
        ([.attemptJoin server, .queryCaps, .makeJoinCall server, .signEventCall v,
          .sendJoinCall server v, .checkCall server], .error e)) ∨
      (joinRoomUsingServer env r roomID server =
        ([.attemptJoin server, .queryCaps, .makeJoinCall server, .signEventCall v,
          .sendJoinCall server v, .checkCall server, .publishWithState server v],
         .ok internalServerError)) ∨
      (joinRoomUsingServer env r roomID server =
        ([.attemptJoin server, .queryCaps, .makeJoinCall server, .signEventCall v,
          .sendJoinCall server v, .checkCall server, .publishWithState server v],
         .ok { code := 200, json := .joinedRoom roomID })) := by
  cases hq : env.queryRoomVersionCapabilities with
  | error e =>
    refine ⟨roomVersionV1, Or.inl ⟨e, ?_⟩⟩
    simp [joinRoomUsingServer, hq]
  | ok sup =>
    cases hm : env.makeJoin server roomID r.userID sup with
    | error e =>
      refine ⟨roomVersionV1, Or.inr (Or.inl ⟨e, ?_⟩)⟩
      simp [joinRoomUsingServer, hq, hm]
    | ok mk =>
      by_cases hf : env.eventFormatKnown (effectiveVersion mk.roomVersion) = true
      case neg =>
        refine ⟨effectiveVersion mk.roomVersion, Or.inr (Or.inr (Or.inl ?_))⟩
        simp [joinRoomUsingServer, hq, hm, hf]
      case pos =>
        cases hb : env.buildJoinEvent (writeToBuilder r mk.joinEvent roomID)
            (effectiveVersion mk.roomVersion) with
        | error e =>
          refine ⟨effectiveVersion mk.roomVersion, Or.inr (Or.inr (Or.inr (Or.inl ?_)))⟩
          simp [joinRoomUsingServer, hq, hm, hf, hb]
        | ok ev =>
          cases hs : env.sendJoin server ev (effectiveVersion mk.roomVersion) with
          | error e =>
            refine ⟨effectiveVersion mk.roomVersion,
              Or.inr (Or.inr (Or.inr (Or.inr (Or.inl ⟨e, ?_⟩))))⟩
            simp [joinRoomUsingServer, hq, hm, hf, hb, hs]
          | ok sj =>
            cases hc : env.checkSendJoin sj ev with
            | error e =>
              refine ⟨effectiveVersion mk.roomVersion,
                Or.inr (Or.inr (Or.inr (Or.inr (Or.inr (Or.inl ⟨e, ?_⟩)))))⟩
              simp [joinRoomUsingServer, hq, hm, hf, hb, hs, hc]
            | ok u =>
              cases hp : env.sendEventWithState sj ev (effectiveVersion mk.roomVersion) with
              | error e2 =>
                refine ⟨effectiveVersion mk.roomVersion,
                  Or.inr (Or.inr (Or.inr (Or.inr (Or.inr (Or.inr (Or.inl ?_))))))⟩
                simp [joinRoomUsingServer, hq, hm, hf, hb, hs, hc, hp]
              | ok u2 =>
                refine ⟨effectiveVersion mk.roomVersion,
                  Or.inr (Or.inr (Or.inr (Or.inr (Or.inr (Or.inr (Or.inr ?_))))))⟩
                simp [joinRoomUsingServer, hq, hm, hf, hb, hs, hc, hp]

/-- Every handshake attempt's trace begins with an attempt marker for the
server it was invoked with. -/
theorem aux_attempt_head (env : Env) (r : JoinRoomReq) (roomID : String) (server : ServerName) :
    ∃ tl, (joinRoomUsingServer env r roomID server).1 = .attemptJoin server :: tl := by
  obtain ⟨v, h⟩ := aux_cases env r roomID server
  rcases h with ⟨e, h⟩ | ⟨e, h⟩ | h | h | ⟨e, h⟩ | ⟨e, h⟩ | h | h <;> rw [h] <;> exact ⟨_, rfl⟩

/-- A handshake attempt against one server only ever records an attempt
marker for that server. -/
theorem aux_attempt_only (env : Env) (r : JoinRoomReq) (roomID : String) (server s2 : ServerName) :
    Effect.attemptJoin s2 ∈ (joinRoomUsingServer env r roomID server).1 → s2 = server := by
  intro hmem
  obtain ⟨v, h⟩ := aux_cases env r roomID server
  rcases h with ⟨e, h⟩ | ⟨e, h⟩ | h | h | ⟨e, h⟩ | ⟨e, h⟩ | h | h <;> rw [h] at hmem <;>
    simp at hmem <;> exact hmem

/-- A handshake attempt that returns a response without error never
returns status 404. -/
theorem aux_ok_ne_404 (env : Env) (r : JoinRoomReq) (roomID : String) (server : ServerName)
    (resp : JSONResponse) :
    (joinRoomUsingServer env r roomID server).2 = .ok resp → resp.code ≠ 404 := by
  intro h2
  obtain ⟨v, h⟩ := aux_cases env r roomID server
  rcases h with ⟨e, h⟩ | ⟨e, h⟩ | h | h | ⟨e, h⟩ | ⟨e, h⟩ | h | h <;> rw [h] at h2 <;>
    simp_all [internalServerError]
  all_goals subst h2
  all_goals simp

/-- If every candidate before `s` fails and the attempt against `s`
returns a response without error, the loop returns that response and its
trace mentions no server beyond `s`. -/
theorem aux_loop_first_ok (env : Env) (r : JoinRoomReq) (roomID : String) :
    ∀ (pre : List ServerName) (le : Option GoError) (s : ServerName) (rest : List ServerName)
      (tr : List Effect) (resp : JSONResponse),
      (∀ p ∈ pre, ∃ e, (joinRoomUsingServer env r roomID p).2 = .error e) →
      joinRoomUsingServer env r roomID s = (tr, .ok resp) →
      ∃ trAll, joinServersLoop env r roomID (pre ++ s :: rest) le = (trAll, none, resp) ∧
        ∀ s2, Effect.attemptJoin s2 ∈ trAll → s2 ∈ pre ∨ s2 = s := by
  intro pre
  induction pre with
  | nil =>
    intro le s rest tr resp _ hok
    refine ⟨tr, ?_, ?_⟩
    · simp [joinServersLoop, hok]
    · intro s2 hs2
      exact Or.inr (aux_attempt_only env r roomID s s2 (by rw [hok]; exact hs2))
  | cons p pre ih =>
    intro le s rest tr resp hfail hok
    obtain ⟨e, he⟩ := hfail p (List.mem_cons_self p pre)
    rcases hatt : joinRoomUsingServer env r roomID p with ⟨trP, resP⟩
    rw [hatt] at he
    simp only at he
    subst he
    obtain ⟨trAll, hEq, hMem⟩ :=
      ih (some e) s rest tr resp (fun q hq => hfail q (List.mem_cons_of_mem p hq)) hok
    refine ⟨trP ++ trAll, ?_, ?_⟩
    · simp [joinServersLoop, hatt, hEq]
    · intro s2 hs2
      rcases List.mem_append.mp hs2 with hs2 | hs2
      · exact Or.inl (by
          have := aux_attempt_only env r roomID p s2 (by rw [hatt]; exact hs2)
          simp [this])
      · rcases hMem s2 hs2 with h | h
        · exact Or.inl (List.mem_cons_of_mem p h)
        · exact Or.inr h

/-- One unfolding step of the loop when the head attempt fails. -/
theorem aux_loop_cons_error (env : Env) (r : JoinRoomReq) (roomID : String) (s : ServerName)
    (rest : List ServerName) (le : Option GoError) (trS : List Effect) (e : GoError)
    (hatt : joinRoomUsingServer env r roomID s = (trS, .error e)) :
    joinServersLoop env r roomID (s :: rest) le =
      (trS ++ (joinServersLoop env r roomID rest (some e)).1,
       (joinServersLoop env r roomID rest (some e)).2) := by
  rcases hl : joinServersLoop env r roomID rest (some e) with ⟨tr2, le2, resp2⟩
  simp [joinServersLoop, hatt, hl]

/-- If every candidate's attempt fails, the loop ends with the generic
internal server error and the recorded last error is the last candidate's
error. -/
theorem aux_loop_all_fail (env : Env) (r : JoinRoomReq) (roomID : String) :
    ∀ (servers : List ServerName) (h : servers ≠ []) (le : Option GoError),
      (∀ p ∈ servers, ∃ e, (joinRoomUsingServer env r roomID p).2 = .error e) →
      ∃ tr eLast, joinServersLoop env r roomID servers le = (tr, some eLast, internalServerError) ∧
        (joinRoomUsingServer env r roomID (servers.getLast h)).2 = .error eLast := by
  intro servers
  induction servers with
  | nil => intro h; exact absurd rfl h
  | cons s rest ih =>
    intro h le hfail
    obtain ⟨e, he⟩ := hfail s (List.mem_cons_self s rest)
    rcases hatt : joinRoomUsingServer env r roomID s with ⟨trS, resS⟩
    rw [hatt] at he
    simp only at he
    subst he
    cases rest with
    | nil =>
      refine ⟨trS, e, ?_, ?_⟩
      · simp [joinServersLoop, hatt]
      · simp [hatt]
    | cons s2 rest2 =>
      have hne : s2 :: rest2 ≠ [] := List.cons_ne_nil s2 rest2
      obtain ⟨tr2, eL, hEq, hLast⟩ :=
        ih hne (some e) (fun q hq => hfail q (List.mem_cons_of_mem s hq))
      refine ⟨trS ++ tr2, eL, ?_, ?_⟩
      · rw [aux_loop_cons_error env r roomID s (s2 :: rest2) le trS e hatt, hEq]
      · rw [List.getLast_cons hne]
        exact hLast

/-- The loop never produces a 404 response. -/
theorem aux_loop_ne_404 (env : Env) (r : JoinRoomReq) (roomID : String) :
    ∀ (servers : List ServerName) (le : Option GoError),
      ((joinServersLoop env r roomID servers le).2.2).code ≠ 404 := by
  intro servers
  induction servers with
  | nil => intro le; simp [joinServersLoop, internalServerError]
  | cons s rest ih =>
    intro le
    rcases hatt : joinRoomUsingServer env r roomID s with ⟨trS, resS⟩
    cases resS with
    | ok resp =>
      have h404 := aux_ok_ne_404 env r roomID s resp (by rw [hatt])
      simp [joinServersLoop, hatt]
      exact h404
    | error e =>
      rcases hloop : joinServersLoop env r roomID rest (some e) with ⟨tr2, le2, resp2⟩
      have hr := ih (some e)
      rw [hloop] at hr
      simp only at hr
      simp [joinServersLoop, hatt, hloop]
      exact hr

/-- The loop over a non-empty list records an attempt against its head. -/
theorem aux_loop_attempt_mem (env : Env) (r : JoinRoomReq) (roomID : String)
    (s : ServerName) (rest : List ServerName) (le : Option GoError) :
    Effect.attemptJoin s ∈ (joinServersLoop env r roomID (s :: rest) le).1 := by
  obtain ⟨tl, htl⟩ := aux_attempt_head env r roomID s
  rcases hatt : joinRoomUsingServer env r roomID s with ⟨trS, resS⟩
  rw [hatt] at htl
  simp only at htl
  cases resS with
  | ok resp =>
    simp [joinServersLoop, hatt, htl]
  | error e =>
    rcases hloop : joinServersLoop env r roomID rest (some e) with ⟨tr2, le2, resp2⟩
    simp [joinServersLoop, hatt, hloop, htl]

/-- dedupSeen drops a head that was already seen. -/
theorem aux_dedupSeen_cons_mem (d : ServerName) (ds seen : List ServerName) (hm : d ∈ seen) :
    dedupSeen (d :: ds) seen = dedupSeen ds seen := by
  simp [dedupSeen, hm]

/-- dedupSeen keeps an unseen head and marks it seen. -/
theorem aux_dedupSeen_cons_not_mem (d : ServerName) (ds seen : List ServerName) (hm : d ∉ seen) :
    dedupSeen (d :: ds) seen = d :: dedupSeen ds (seen ++ [d]) := by
  simp [dedupSeen, hm]

/-- First-seen deduplication yields a list with no duplicates, none of
whose elements were already seen. -/
theorem aux_dedupSeen_nodup : ∀ (ds seen : List ServerName),
    (dedupSeen ds seen).Nodup ∧ ∀ x ∈ dedupSeen ds seen, x ∉ seen := by
  intro ds
  induction ds with
  | nil => intro seen; exact ⟨List.nodup_nil, by simp [dedupSeen]⟩
  | cons d rest ih =>
    intro seen
    unfold dedupSeen
    by_cases hm : d ∈ seen
    · rw [if_pos hm]
      exact ih seen
    · rw [if_neg hm]
      obtain ⟨h1, h2⟩ := ih (seen ++ [d])
      constructor
      · refine List.nodup_cons.mpr ⟨?_, h1⟩
        intro hd
        have := h2 d hd
        simp at this
      · intro x hx
        rcases List.mem_cons.mp hx with rfl | hx
        · exact hm
        · intro hxs
          exact h2 x hx (by simp [hxs])

/-- The seen-map fold of joinRoomByID computes first-seen deduplication of
the inviter domains, appended to the accumulator. -/
theorem aux_collect_ok : ∀ (us : List String) (acc l : List ServerName),
    collectInviterDomains us acc = .ok l →
    ∃ ds, inviterDomains us = .ok ds ∧ l = acc ++ dedupSeen ds acc := by
  intro us
  induction us with
  | nil =>
    intro acc l h
    refine ⟨[], rfl, ?_⟩
    simp only [collectInviterDomains] at h
    cases h
    simp [dedupSeen]
  | cons u rest ih =>
    intro acc l h
    unfold collectInviterDomains at h
    cases hs : splitID '@' u with
    | error e => rw [hs] at h; cases h
    | ok p =>
      rw [hs] at h
      dsimp only at h
      by_cases hm : p.2 ∈ acc
      · rw [if_pos hm] at h
        obtain ⟨ds, hds, hl⟩ := ih acc l h
        refine ⟨p.2 :: ds, ?_, ?_⟩
        · unfold inviterDomains
          rw [hs, hds]
        · rw [hl, aux_dedupSeen_cons_mem p.2 ds acc hm]
      · rw [if_neg hm] at h
        obtain ⟨ds, hds, hl⟩ := ih (acc ++ [p.2]) l h
        refine ⟨p.2 :: ds, ?_, ?_⟩
        · unfold inviterDomains
          rw [hs, hds]
        · rw [hl, aux_dedupSeen_cons_not_mem p.2 ds acc hm]
          simp

/-- When make-join succeeded, every room version recorded anywhere in the
attempt's trace (signing, send-join, publication) is the effective version
derived from the make-join response. -/
theorem aux_trace_versions (env : Env) (r : JoinRoomReq) (roomID : String)
    (server : ServerName) (supported : List RoomVersion) (mk : RespMakeJoin)
    (h1 : env.queryRoomVersionCapabilities = .ok supported)
    (h2 : env.makeJoin server roomID r.userID supported = .ok mk) :
    ∀ ef ∈ (joinRoomUsingServer env r roomID server).1, ∀ v,
      ef.version? = some v → v = effectiveVersion mk.roomVersion := by
  intro ef hef v hv
  by_cases hf : env.eventFormatKnown (effectiveVersion mk.roomVersion) = true
  case neg =>
    have h : (joinRoomUsingServer env r roomID server).1 =
        [.attemptJoin server, .queryCaps, .makeJoinCall server] := by
      simp [joinRoomUsingServer, h1, h2, hf]
    rw [h] at hef
    fin_cases hef <;> simp_all [Effect.version?]
  case pos =>
    cases hb : env.buildJoinEvent (writeToBuilder r mk.joinEvent roomID)
        (effectiveVersion mk.roomVersion) with
    | error e =>
      have h : (joinRoomUsingServer env r roomID server).1 =
          [.attemptJoin server, .queryCaps, .makeJoinCall server,
           .signEventCall (effectiveVersion mk.roomVersion)] := by
        simp [joinRoomUsingServer, h1, h2, hf, hb]
      rw [h] at hef
      fin_cases hef <;> simp_all [Effect.version?]
    | ok ev =>
      cases hs : env.sendJoin server ev (effectiveVersion mk.roomVersion) with
      | error e =>
        have h : (joinRoomUsingServer env r roomID server).1 =
            [.attemptJoin server, .queryCaps, .makeJoinCall server,
             .signEventCall (effectiveVersion mk.roomVersion),
             .sendJoinCall server (effectiveVersion mk.roomVersion)] := by
          simp [joinRoomUsingServer, h1, h2, hf, hb, hs]
        rw [h] at hef
        fin_cases hef <;> simp_all [Effect.version?]
      | ok sj =>
        cases hc : env.checkSendJoin sj ev with
        | error e =>
          have h : (joinRoomUsingServer env r roomID server).1 =
              [.attemptJoin server, .queryCaps, .makeJoinCall server,
               .signEventCall (effectiveVersion mk.roomVersion),
               .sendJoinCall server (effectiveVersion mk.roomVersion), .checkCall server] := by
            simp [joinRoomUsingServer, h1, h2, hf, hb, hs, hc]
          rw [h] at hef
          fin_cases hef <;> simp_all [Effect.version?]
        | ok u =>
          cases hp : env.sendEventWithState sj ev (effectiveVersion mk.roomVersion) with
          | error e2 =>
            have h : (joinRoomUsingServer env r roomID server).1 =
                [.attemptJoin server, .queryCaps, .makeJoinCall server,
                 .signEventCall (effectiveVersion mk.roomVersion),
                 .sendJoinCall server (effectiveVersion mk.roomVersion), .checkCall server,
                 .publishWithState server (effectiveVersion mk.roomVersion)] := by
              simp [joinRoomUsingServer, h1, h2, hf, hb, hs, hc, hp]
            rw [h] at hef
            fin_cases hef <;> simp_all [Effect.version?]
          | ok u2 =>
            have h : (joinRoomUsingServer env r roomID server).1 =
                [.attemptJoin server, .queryCaps, .makeJoinCall server,
                 .signEventCall (effectiveVersion mk.roomVersion),
                 .sendJoinCall server (effectiveVersion mk.roomVersion), .checkCall server,
                 .publishWithState server (effectiveVersion mk.roomVersion)] := by
              simp [joinRoomUsingServer, h1, h2, hf, hb, hs, hc, hp]
            rw [h] at hef
            fin_cases hef <;> simp_all [Effect.version?]

/-- C1 (counterexample): with candidate s1 offering an unknown room
version 99 and candidate s2 that would succeed with a 200 response, the
fallback loop terminates with the BadRequest (UnsupportedRoomVersion)
response from s1 and never contacts s2 — the caller-level loop does NOT
advance to the next candidate, contrary to the claim. -/
theorem c1_counterexample :
    joinServersLoop envC1 r0 "!r:x" ["s1", "s2"] none =
      ([.attemptJoin "s1", .queryCaps, .makeJoinCall "s1"], none,
       { code := 400, json := .unsupportedRoomVersion "99" }) ∧
    (joinRoomUsingServer envC1 r0 "!r:x" "s2").2 =
      .ok { code := 200, json := .joinedRoom "!r:x" } ∧
    Effect.attemptJoin "s2" ∉
      ([.attemptJoin "s1", .queryCaps, .makeJoinCall "s1"] : List Effect) :=
  ⟨rfl, rfl, by decide⟩

/-- C1 (amended): when the effective room version of the make-join
response has no known event-format rules, the per-candidate handshake
returns the BadRequest (UnsupportedRoomVersion) response with a nil
error, so the caller-level fallback loop terminates the request with that
BadRequest instead of advancing to the next candidate. -/
theorem c1_unsupported_version_terminates (env : Env) (r : JoinRoomReq) (roomID : String)
    (server : ServerName) (rest : List ServerName) (supported : List RoomVersion)
    (mk : RespMakeJoin)
    (h1 : env.queryRoomVersionCapabilities = .ok supported)
    (h2 : env.makeJoin server roomID r.userID supported = .ok mk)
    (h3 : env.eventFormatKnown (effectiveVersion mk.roomVersion) = false) :
    joinRoomUsingServer env r roomID server =
      ([.attemptJoin server, .queryCaps, .makeJoinCall server],
       .ok { code := 400, json := .unsupportedRoomVersion (effectiveVersion mk.roomVersion) }) ∧
    joinServersLoop env r roomID (server :: rest) none =
      ([.attemptJoin server, .queryCaps, .makeJoinCall server], none,
       { code := 400, json := .unsupportedRoomVersion (effectiveVersion mk.roomVersion) }) := by
  have hatt : joinRoomUsingServer env r roomID server =
      ([.attemptJoin server, .queryCaps, .makeJoinCall server],
       .ok { code := 400, json := .unsupportedRoomVersion (effectiveVersion mk.roomVersion) }) := by
    simp [joinRoomUsingServer, h1, h2, h3]
  exact ⟨hatt, by simp [joinServersLoop, hatt]⟩

/-- C1 witness: the amended behavior at the concrete two-candidate input. -/
theorem c1_unsupported_version_terminates_witness :
    joinRoomUsingServer envC1 r0 "!r:x" "s1" =
      ([.attemptJoin "s1", .queryCaps, .makeJoinCall "s1"],
       .ok { code := 400, json := .unsupportedRoomVersion (effectiveVersion "99") }) ∧
    joinServersLoop envC1 r0 "!r:x" ["s1", "s2"] none =
      ([.attemptJoin "s1", .queryCaps, .makeJoinCall "s1"], none,
       { code := 400, json := .unsupportedRoomVersion (effectiveVersion "99") }) :=
  c1_unsupported_version_terminates envC1 r0 "!r:x" "s1" ["s2"] ["1"]
    ⟨"99", emptyBuilder⟩ rfl rfl rfl

/-- C2: a successful candidate-server construction consists of the
inviter-ID domains deduplicated in first-seen order, followed by the
domain embedded in the room ID unless that domain is the local server
name or already present; the result has no duplicates. -/
theorem c2_candidate_servers (sn : ServerName) (roomID : String) (senders : List String)
    (out : List ServerName) (h : candidateServers sn roomID senders = .ok out) :
    ∃ ds lp rdom, inviterDomains senders = .ok ds ∧ splitID '!' roomID = .ok (lp, rdom) ∧
      out = dedupSeen ds [] ++
        (if rdom ≠ sn ∧ rdom ∉ dedupSeen ds [] then [rdom] else []) ∧
      out.Nodup := by
  unfold candidateServers at h
  cases hc : collectInviterDomains senders [] with
  | error e => rw [hc] at h; cases h
  | ok servers =>
    rw [hc] at h
    dsimp only at h
    obtain ⟨ds, hds, hserv⟩ := aux_collect_ok senders [] servers hc
    simp only [List.nil_append] at hserv
    subst hserv
    obtain ⟨hnodup, _⟩ := aux_dedupSeen_nodup ds []
    cases hsp : splitID '!' roomID with
    | error e => rw [hsp] at h; cases h
    | ok p =>
      obtain ⟨lp0, rdom0⟩ := p
      rw [hsp] at h
      dsimp only at h
      by_cases hcond : rdom0 ≠ sn ∧ rdom0 ∉ dedupSeen ds []
      · rw [if_pos hcond] at h
        cases h
        refine ⟨ds, lp0, rdom0, hds, rfl, ?_, ?_⟩
        · rw [if_pos hcond]
        · exact hnodup.append (List.nodup_singleton rdom0)
            (List.disjoint_singleton.mpr hcond.2)
      · rw [if_neg hcond] at h
        cases h
        refine ⟨ds, lp0, rdom0, hds, rfl, ?_, hnodup⟩
        rw [if_neg hcond]
        simp

/-- C2 witness: concrete invite list with a repeated inviter domain and a
fresh room-ID domain. -/
theorem c2_candidate_servers_witness :
    candidateServers "local" "!r:three" ["@a:one", "@b:two", "@c:one"] =
      .ok ["one", "two", "three"] ∧
    ∃ ds lp rdom, inviterDomains ["@a:one", "@b:two", "@c:one"] = .ok ds ∧
      splitID '!' "!r:three" = .ok (lp, rdom) ∧
      (["one", "two", "three"] : List ServerName) = dedupSeen ds [] ++
        (if rdom ≠ "local" ∧ rdom ∉ dedupSeen ds [] then [rdom] else []) ∧
      (["one", "two", "three"] : List ServerName).Nodup :=
  ⟨rfl, c2_candidate_servers "local" "!r:three" ["@a:one", "@b:two", "@c:one"]
    ["one", "two", "three"] rfl⟩

/-- C3: when the send-join response fails trust verification, the attempt
returns that verification error and its trace contains no invocation of
the event-publication capability. -/
theorem c3_check_failure_never_published (env : Env) (r : JoinRoomReq) (roomID : String)
    (server : ServerName) (supported : List RoomVersion) (mk : RespMakeJoin) (ev : Event)
    (sj : RespSendJoin) (e : GoError)
    (h1 : env.queryRoomVersionCapabilities = .ok supported)
    (h2 : env.makeJoin server roomID r.userID supported = .ok mk)
    (h3 : env.eventFormatKnown (effectiveVersion mk.roomVersion) = true)
    (h4 : env.buildJoinEvent (writeToBuilder r mk.joinEvent roomID)
        (effectiveVersion mk.roomVersion) = .ok ev)
    (h5 : env.sendJoin server ev (effectiveVersion mk.roomVersion) = .ok sj)
    (h6 : env.checkSendJoin sj ev = .error e) :
    (joinRoomUsingServer env r roomID server).2 = .error e ∧
    ((joinRoomUsingServer env r roomID server).1).countP (fun ef => ef.isPublish) = 0 := by
  have hatt : joinRoomUsingServer env r roomID server =
      ([.attemptJoin server, .queryCaps, .makeJoinCall server,
        .signEventCall (effectiveVersion mk.roomVersion),
        .sendJoinCall server (effectiveVersion mk.roomVersion), .checkCall server],
       .error e) := by
    simp [joinRoomUsingServer, h1, h2, h3, h4, h5, h6]
  rw [hatt]
  exact ⟨rfl, by simp [List.countP_cons, Effect.isPublish]⟩

/-- C3 witness: concrete environment whose verification always fails. -/
theorem c3_check_failure_never_published_witness :
    (joinRoomUsingServer envC3 r0 "!r:x" "s1").2 = .error (.other "bad signature") ∧
    ((joinRoomUsingServer envC3 r0 "!r:x" "s1").1).countP (fun ef => ef.isPublish) = 0 :=
  c3_check_failure_never_published envC3 r0 "!r:x" "s1" ["1"] ⟨"1", emptyBuilder⟩
    ⟨writeToBuilder r0 emptyBuilder "!r:x", "1"⟩ ⟨[]⟩ (.other "bad signature")
    rfl rfl rfl rfl rfl rfl

/-- C4: the join always attempts the local path first; a local-path error
other than the distinguished room-absent signal ends the request with the
internal server error; the room-absent signal with an empty candidate list
yields NotFound; a local publish failure yields the internal server
error; local success yields 200; and the room-absent signal with a
non-empty candidate list falls through to the federated loop. -/
theorem c4_local_path_first (env : Env) (r : JoinRoomReq) (roomID : String)
    (servers : List ServerName) :
    ((joinRoomUsingServers env r roomID servers).1).head? = some .buildLocal ∧
    (∀ e, env.buildEventLocal (writeToBuilder r emptyBuilder roomID) = .error e →
      e ≠ .errRoomNoExists →
      joinRoomUsingServers env r roomID servers = ([.buildLocal], none, internalServerError)) ∧
    (env.buildEventLocal (writeToBuilder r emptyBuilder roomID) = .error .errRoomNoExists →
      servers = [] →
      joinRoomUsingServers env r roomID servers =
        ([.buildLocal], none, { code := 404, json := .notFoundNoServers })) ∧
    (∀ ev e2, env.buildEventLocal (writeToBuilder r emptyBuilder roomID) = .ok ev →
      env.sendEventsLocal ev.1 ev.2 = .error e2 →
      joinRoomUsingServers env r roomID servers =
        ([.buildLocal, .publishLocal ev.2], none, internalServerError)) ∧
    (∀ ev, env.buildEventLocal (writeToBuilder r emptyBuilder roomID) = .ok ev →
      env.sendEventsLocal ev.1 ev.2 = .ok () →
      joinRoomUsingServers env r roomID servers =
        ([.buildLocal, .publishLocal ev.2], none,
         { code := 200, json := .joinedRoom roomID })) ∧
    (env.buildEventLocal (writeToBuilder r emptyBuilder roomID) = .error .errRoomNoExists →
      servers ≠ [] →
      joinRoomUsingServers env r roomID servers =
        (.buildLocal :: (joinServersLoop env r roomID servers none).1,
         (joinServersLoop env r roomID servers none).2)) := by
  refine ⟨?_, ?_, ?_, ?_, ?_, ?_⟩
  · cases hb : env.buildEventLocal (writeToBuilder r emptyBuilder roomID) with
    | ok ev =>
      cases hs : env.sendEventsLocal ev.1 ev.2 with
      | ok u => simp [joinRoomUsingServers, hb, hs]
      | error e2 => simp [joinRoomUsingServers, hb, hs]
    | error e =>
      by_cases he : e = GoError.errRoomNoExists
      · subst he
        cases servers with
        | nil => simp [joinRoomUsingServers, hb]
        | cons s rest =>
          rcases hl : joinServersLoop env r roomID (s :: rest) none with ⟨tr, lr⟩
          simp [joinRoomUsingServers, hb, hl]
      · simp [joinRoomUsingServers, hb, he]
  · intro e hb hne
    simp [joinRoomUsingServers, hb, hne]
  · intro hb hempty
    subst hempty
    simp [joinRoomUsingServers, hb]
  · intro ev e2 hb hs
    simp [joinRoomUsingServers, hb, hs]
  · intro ev hb hs
    simp [joinRoomUsingServers, hb, hs]
  · intro hb hne
    cases servers with
    | nil => exact absurd rfl hne
    | cons s rest =>
      rcases hl : joinServersLoop env r roomID (s :: rest) none with ⟨tr, lr⟩
      simp [joinRoomUsingServers, hb, hl]

/-- C4 witness: a non-room-absent local failure is fatal (500), and the
room-absent signal with no candidates yields 404. -/
theorem c4_local_path_first_witness :
    joinRoomUsingServers envC4 r0 "!r:x" ["s1"] = ([.buildLocal], none, internalServerError) ∧
    joinRoomUsingServers envBase r0 "!r:x" [] =
      ([.buildLocal], none, { code := 404, json := .notFoundNoServers }) :=
  ⟨(c4_local_path_first envC4 r0 "!r:x" ["s1"]).2.1 (.other "bad content") rfl (by decide),
   (c4_local_path_first envBase r0 "!r:x" []).2.2.1 rfl rfl⟩

/-- C5 (counterexample): the empty target starts with neither the room-ID
sigil nor the alias sigil, yet the dispatcher does not return a
BadRequest response — it panics (modelled as none) while building the
invalid-first-character message. -/
theorem c5_counterexample :
    firstChar "" ≠ some '!' ∧ firstChar "" ≠ some '#' ∧
    JoinRoomByIDOrAlias envBase r0 "" = none :=
  ⟨by decide, by decide, rfl⟩

/-- C5 (amended): for every NON-EMPTY target starting with neither sigil,
the dispatcher returns BadRequest naming the invalid leading character
(the empty target instead panics), and an alias that fails syntactic
decomposition yields BadRequest. -/
theorem c5_bad_target_rejected (env : Env) (r : JoinRoomReq) (s : String) (c : Char)
    (cs : List Char) (roomAlias : String) (e2 : GoError)
    (h1 : s.data = c :: cs) (h2 : c ≠ '!') (h3 : c ≠ '#')
    (h4 : splitID '#' roomAlias = .error e2) :
    JoinRoomByIDOrAlias env r s =
      some ([], none, { code := 400, json := .badJSONInvalidFirstChar c }) ∧
    joinRoomByAlias env r roomAlias =
      ([], none, { code := 400, json := .badJSONAliasForm }) := by
  constructor
  · simp [JoinRoomByIDOrAlias, firstChar, h1, h2, h3]
  · simp [joinRoomByAlias, h4]

/-- C5 witness: a target starting with the user sigil and an alias with
no colon. -/
theorem c5_bad_target_rejected_witness :
    JoinRoomByIDOrAlias envBase r0 "@u" =
      some ([], none, { code := 400, json := .badJSONInvalidFirstChar '@' }) ∧
    joinRoomByAlias envBase r0 "#noColon" =
      ([], none, { code := 400, json := .badJSONAliasForm }) :=
  c5_bad_target_rejected envBase r0 "@u" '@' ['u'] "#noColon"
    (.other "invalid ID: missing colon") rfl (by decide) (by decide) rfl

/-- C6: in the fallback loop, the first candidate whose attempt returns a
response without error determines the outcome and no server beyond it is
contacted; if every candidate's attempt fails, the loop returns the
generic internal server error with the last attempt's error recorded as
the diagnostic cause. -/
theorem c6_first_success_wins (env : Env) (r : JoinRoomReq) (roomID : String) :
    (∀ (pre : List ServerName) (s : ServerName) (rest : List ServerName) (tr : List Effect)
       (resp : JSONResponse),
       (∀ p ∈ pre, ∃ e, (joinRoomUsingServer env r roomID p).2 = .error e) →
       joinRoomUsingServer env r roomID s = (tr, .ok resp) →
       ∃ trAll, joinServersLoop env r roomID (pre ++ s :: rest) none = (trAll, none, resp) ∧
         ∀ s2, Effect.attemptJoin s2 ∈ trAll → s2 ∈ pre ∨ s2 = s) ∧
    (∀ (servers : List ServerName) (h : servers ≠ []),
       (∀ p ∈ servers, ∃ e, (joinRoomUsingServer env r roomID p).2 = .error e) →
       ∃ tr eLast,
         joinServersLoop env r roomID servers none = (tr, some eLast, internalServerError) ∧
         (joinRoomUsingServer env r roomID (servers.getLast h)).2 = .error eLast) :=
  ⟨fun pre s rest tr resp hf hok =>
     aux_loop_first_ok env r roomID pre none s rest tr resp hf hok,
   fun servers h hf => aux_loop_all_fail env r roomID servers h none hf⟩

/-- C6 witness: a first candidate that succeeds with no prior failures,
and a two-candidate list whose attempts all fail with the last error kept. -/
theorem c6_first_success_wins_witness :
    (∃ trAll, joinServersLoop envBase r0 "!r:x" ([] ++ "s1" :: ["s2"]) none =
       (trAll, none, { code := 200, json := .joinedRoom "!r:x" }) ∧
       ∀ s2, Effect.attemptJoin s2 ∈ trAll → s2 ∈ ([] : List ServerName) ∨ s2 = "s1") ∧
    (∃ tr eLast, joinServersLoop envC6 r0 "!r:x" ["s1", "s2"] none =
       (tr, some eLast, internalServerError) ∧
       (joinRoomUsingServer envC6 r0 "!r:x"
         (["s1", "s2"].getLast (List.cons_ne_nil "s1" ["s2"]))).2 = .error eLast) :=
  ⟨(c6_first_success_wins envBase r0 "!r:x").1 [] "s1" ["s2"]
     [.attemptJoin "s1", .queryCaps, .makeJoinCall "s1", .signEventCall "1",
      .sendJoinCall "s1" "1", .checkCall "s1", .publishWithState "s1" "1"]
     { code := 200, json := .joinedRoom "!r:x" } (by simp) rfl,
   (c6_first_success_wins envC6 r0 "!r:x").2 ["s1", "s2"]
     (List.cons_ne_nil "s1" ["s2"]) (fun p _ => ⟨.other p, rfl⟩)⟩

/-- C7 (counterexample): with only room version 2 supported locally and
the remote omitting the room version, the attempt signs, sends and
publishes with the constant version 1 — which is not in the locally
supported set, hence not chosen from the intersection of locally
supported and remotely offered versions. -/
theorem c7_counterexample :
    envC7.queryRoomVersionCapabilities = .ok ["2"] ∧
    (joinRoomUsingServer envC7 r0 "!r:x" "s1").1 =
      [.attemptJoin "s1", .queryCaps, .makeJoinCall "s1", .signEventCall "1",
       .sendJoinCall "s1" "1", .checkCall "s1", .publishWithState "s1" "1"] ∧
    ("1" : RoomVersion) ∉ (["2"] : List RoomVersion) :=
  ⟨rfl, rfl, by decide⟩

/-- C7 (amended): when the make-join response omits the room version,
every room version recorded in the attempt's trace (signing, send-join,
publication) is the constant room version 1, irrespective of the locally
supported or remotely offered version sets. -/
theorem c7_default_version_is_v1 (env : Env) (r : JoinRoomReq) (roomID : String)
    (server : ServerName) (supported : List RoomVersion) (mk : RespMakeJoin)
    (h1 : env.queryRoomVersionCapabilities = .ok supported)
    (h2 : env.makeJoin server roomID r.userID supported = .ok mk)
    (h3 : mk.roomVersion = "") :
    ∀ ef ∈ (joinRoomUsingServer env r roomID server).1, ∀ v,
      ef.version? = some v → v = roomVersionV1 := by
  intro ef hef v hv
  have h := aux_trace_versions env r roomID server supported mk h1 h2 ef hef v hv
  rw [h, h3]
  simp [effectiveVersion]

/-- C7 witness: the amended default at the concrete environment, observed
at the send-join call recorded in the trace. -/
theorem c7_default_version_is_v1_witness :
    Effect.sendJoinCall "s1" "1" ∈ (joinRoomUsingServer envC7 r0 "!r:x" "s1").1 ∧
    ("1" : RoomVersion) = roomVersionV1 :=
  ⟨by decide,
   c7_default_version_is_v1 envC7 r0 "!r:x" "s1" ["2"] ⟨"", emptyBuilder⟩ rfl rfl rfl
     (Effect.sendJoinCall "s1" "1") (by decide) "1" rfl⟩

/-- C8: writeToBuilder overwrites the template's type, content, unsigned
section, sender, state key, room ID and redaction target regardless of
what the remote server returned, and the resulting builder has state key
equal to its sender (the requesting user). -/
theorem c8_write_to_builder (r : JoinRoomReq) (eb eb2 : EventBuilder) (roomID : String) :
    writeToBuilder r eb roomID =
      { type := "m.room.member", content := r.content, unsigned := Content.obj [],
        sender := r.userID, stateKey := some r.userID, roomID := roomID, redacts := "" } ∧
    writeToBuilder r eb roomID = writeToBuilder r eb2 roomID ∧
    (writeToBuilder r eb roomID).stateKey = some (writeToBuilder r eb roomID).sender :=
  ⟨rfl, rfl, rfl⟩

/-- C9: the dispatcher panics (modelled as none) on the empty target —
the BadRequest branch indexes the first rune of an empty slice — while
every non-empty target produces a structured response; the inline comment
claims the indexing call is safe, so this is a code bug. -/
theorem c9_empty_target_panics :
    JoinRoomByIDOrAlias envBase r0 "" = none ∧
    (JoinRoomByIDOrAlias envBase r0 "@u").isSome = true ∧
    (JoinRoomByIDOrAlias envBase r0 "!r:remote").isSome = true ∧
    (JoinRoomByIDOrAlias envBase r0 "#a:local").isSome = true :=
  ⟨rfl, rfl, rfl, rfl⟩

/-- C10: an alias whose domain is the local server name and which
resolves to a room ID hands joinRoomUsingServers exactly the one-element
candidate list containing the local server name; hence when the local
store reports the room absent, a federated handshake is attempted against
the local server itself and the outcome is not a direct NotFound. -/
theorem c10_local_alias_single_candidate (env : Env) (r : JoinRoomReq) (roomAlias : String)
    (lp : String) (rid : String)
    (h1 : splitID '#' roomAlias = .ok (lp, env.serverName))
    (h2 : env.getRoomIDForAlias roomAlias = .ok rid)
    (h3 : rid.length > 0) :
    joinRoomByAlias env r roomAlias = joinRoomUsingServers env r rid [env.serverName] ∧
    (env.buildEventLocal (writeToBuilder r emptyBuilder rid) = .error .errRoomNoExists →
      ∃ tr le resp, joinRoomByAlias env r roomAlias = (tr, le, resp) ∧
        Effect.attemptJoin env.serverName ∈ tr ∧ resp.code ≠ 404) := by
  have hmain : joinRoomByAlias env r roomAlias = joinRoomUsingServers env r rid [env.serverName] := by
    simp [joinRoomByAlias, h1, h2, h3]
  refine ⟨hmain, ?_⟩
  intro hb
  rcases hl : joinServersLoop env r rid [env.serverName] none with ⟨tr, le, resp⟩
  have hloop : joinRoomUsingServers env r rid [env.serverName] =
      (.buildLocal :: tr, le, resp) := by
    simp [joinRoomUsingServers, hb, hl]
  refine ⟨.buildLocal :: tr, le, resp, by rw [hmain, hloop], ?_, ?_⟩
  · have := aux_loop_attempt_mem env r rid env.serverName [] none
    rw [hl] at this
    exact List.mem_cons_of_mem _ this
  · have := aux_loop_ne_404 env r rid [env.serverName] none
    rw [hl] at this
    exact this

/-- C10 witness: a local alias resolving to a room the local store does
not have. -/
theorem c10_local_alias_single_candidate_witness :
    joinRoomByAlias envBase r0 "#a:local" =
      joinRoomUsingServers envBase r0 "!r:remote" ["local"] ∧
    ∃ tr le resp, joinRoomByAlias envBase r0 "#a:local" = (tr, le, resp) ∧
      Effect.attemptJoin "local" ∈ tr ∧ resp.code ≠ 404 := by
  have h := c10_local_alias_single_candidate envBase r0 "#a:local" "a" "!r:remote"
    rfl rfl (by decide)
  exact ⟨h.1, h.2 rfl⟩

end Dendrite
